import Mathlib

/-!
Verification of the quinn asynchronous QUIC execution layer.

The public facade `src/quinn/src/lib.rs` declares the `Socket` trait (with a
defaulted `caps` associated function), the `IO_LOOP_BOUND` constant, and the
`ConnectionEvent`/`EndpointEvent` enums.  The internal modules (`mutex`,
`broadcast`, `endpoint`, `connection`, `recv_stream`, `send_stream`,
`platform`) are declared but their source is not part of this tree, so their
behaviour is modelled from the specification where a claim needs it; each such
definition carries a doc comment starting `Modelled from the spec:`.
-/

namespace Quinn

/-! ## Socket abstraction (src/quinn/src/lib.rs, `pub mod transport`) -/

/-- `SocketCapabilities` from the `platform` module: the capabilities the
socket reports.  Only `max_gso_segments` is exposed through `Socket::caps`. -/
structure SocketCapabilities where
  max_gso_segments : Nat
  deriving Repr, DecidableEq

/-- The body of the default `Socket::caps` implementation
(src/quinn/src/lib.rs lines 118-123): `SocketCapabilities { max_gso_segments: 1 }`. -/
def defaultCaps : SocketCapabilities :=
  { max_gso_segments := 1 }

/-- `std::task::Poll<T>`: either a ready value or pending (would-block). -/
inductive Poll (α : Type) where
  | ready : α → Poll α
  | pending : Poll α
  deriving Repr, DecidableEq

/-- `std::io::Result<T>` specialised to the socket: ok value or an I/O error
(errors abstracted to an error-kind tag). -/
inductive IoResult (α : Type) where
  | ok : α → IoResult α
  | err : Nat → IoResult α
  deriving Repr, DecidableEq

/-- An implementation of the `Socket` trait, as the data a trait impl
provides.  `poll_send` and `poll_recv` are modelled as pure functions of the
state of the implementing type together with the batch submitted (`sendFn` takes
the number of transmits in the batch; `recvFn` the number of buffers
provided).  `caps` is an associated function of the trait: it takes no
`self` receiver and no arguments (src/quinn/src/lib.rs line 119,
`fn caps() -> SocketCapabilities`), so an implementation supplies one
constant value for it. -/
structure SocketImpl (σ : Type) where
  sendFn : σ → Nat → Poll (IoResult Nat)
  recvFn : σ → Nat → Poll (IoResult Nat)
  localAddrFn : σ → IoResult Nat
  caps : SocketCapabilities

/-- A call to `Socket::caps` for implementation `I`.  The Rust signature
`fn caps() -> SocketCapabilities` has no `self` parameter, so a call site can
only name the type; the socket instance `inst` and the time of the call `t`
cannot flow into the result.  They are recorded as arguments here precisely to
state that they are ignored. -/
def capsCall {σ : Type} (I : SocketImpl σ) (inst : σ) (t : Nat) : SocketCapabilities :=
  let _ := inst
  let _ := t
  I.caps

/-- Construct a `Socket` implementation that supplies `poll_send`,
`poll_recv` and `local_addr` but does **not** override the defaulted `caps`:
the default body of the trait fills it in. -/
def mkSocketImplNoCapsOverride {σ : Type}
    (sendFn recvFn : σ → Nat → Poll (IoResult Nat))
    (localAddrFn : σ → IoResult Nat) : SocketImpl σ :=
  { sendFn := sendFn, recvFn := recvFn, localAddrFn := localAddrFn,
    caps := defaultCaps }

/-- Modelled from the spec: the `Socket` contract of §4.1 (the trait in
src/quinn/src/lib.rs declares only the signatures; the contract on the
returned counts is stated in the spec).  For a well-behaved socket,
`poll_send`, given a batch of `n` transmits, returns either pending (would-block) or a
count of successfully transmitted datagrams between `0` and `n`; `poll_recv`
is symmetric over the `n` buffers provided.  Partial results are legal. -/
def SocketContract {σ : Type} (I : SocketImpl σ) : Prop :=
  (∀ s n, ∀ k, I.sendFn s n = Poll.ready (IoResult.ok k) → k ≤ n) ∧
  (∀ s n, ∀ k, I.recvFn s n = Poll.ready (IoResult.ok k) → k ≤ n)

/-! ## IO_LOOP_BOUND (src/quinn/src/lib.rs line 203) -/

/-- `const IO_LOOP_BOUND: usize = 10;` — maximum number of send/recv calls to
make before moving on to other processing. -/
def IO_LOOP_BOUND : Nat := 10

/-- Modelled from the spec: one inbound/outbound drain step of a driver turn
(§4.4/§4.5; the driver sources `connection.rs`/`endpoint.rs` are not in this
tree).  The step processes queued datagrams in order, stopping after
`IO_LOOP_BOUND` of them even if more remain; it reports the datagrams
processed this turn, the remaining backlog, and whether it re-registered
interest (yielded with work left over) so the backlog is picked up on a later
turn. -/
structure DrainResult (D : Type) where
  processed : List D
  remaining : List D
  reregistered : Bool

/-- Modelled from the spec: the bounded drain loop of §4.5 step (1)/(5) and
§4.4 — take up to `IO_LOOP_BOUND` datagrams off the backlog, leave the rest,
and re-register interest exactly when backlog remains. -/
def drainTurn {D : Type} (backlog : List D) : DrainResult D :=
  { processed := backlog.take IO_LOOP_BOUND,
    remaining := backlog.drop IO_LOOP_BOUND,
    reregistered := decide (IO_LOOP_BOUND < backlog.length) }

/-! ## Shared-State Lock (`mutex` module; source not in tree) -/

/-- Modelled from the spec: the state of one Shared-State Lock of §4.2
(source `mutex.rs` is not in this tree).  `holders` lists the tasks currently
inside the critical section (the spec requires at most one at any instant;
the list form lets that be proved rather than assumed); `queue` lists the
pending waiters in arrival order.  `arrived` and `resumed` are history
variables recording, respectively, every task that ever went pending, in
arrival order, and every waiter resumed by a release, in resume order. -/
structure LockState where
  holders : List Nat
  queue : List Nat
  arrived : List Nat
  resumed : List Nat
  deriving Repr, DecidableEq

/-- The initial lock state: unheld, no waiters. -/
def LockState.init : LockState :=
  { holders := [], queue := [], arrived := [], resumed := [] }

/-- An operation a concurrently polled task may perform on the lock. -/
inductive LockOp where
  | tryAcquire : Nat → LockOp
  | release : Nat → LockOp
  deriving Repr, DecidableEq

/-- Modelled from the spec: one step of the Shared-State Lock (§4.2).
`try_acquire` grants the lock when it is free, otherwise the caller registers
and joins the waiter queue at the back (pending).  `release` by the current
holder hands the lock to the waiter at the front of the queue (first-in
first-out), resuming it; a release by a non-holder is a no-op (the contract
is re-entrant-free: only the holder ends its critical section). -/
def lockStep (st : LockState) : LockOp → LockState
  | LockOp.tryAcquire t =>
      if st.holders = [] then
        { st with holders := [t] }
      else
        { st with queue := st.queue ++ [t], arrived := st.arrived ++ [t] }
  | LockOp.release t =>
      if st.holders = [t] then
        match st.queue with
        | [] => { st with holders := [] }
        | w :: ws =>
            { st with holders := [w], queue := ws, resumed := st.resumed ++ [w] }
      else st

/-- Run an arbitrary interleaving of lock operations from the initial state. -/
def lockRun (ops : List LockOp) : LockState :=
  ops.foldl lockStep LockState.init

/-- The invariant of the lock: at most one holder, and the arrival log equals
the resume log followed by the still-pending queue (so waiters are resumed
exactly in arrival order). -/
def LockInv (st : LockState) : Prop :=
  st.holders.length ≤ 1 ∧ st.arrived = st.resumed ++ st.queue

lemma lockStep_inv (st : LockState) (op : LockOp) (h : LockInv st) :
    LockInv (lockStep st op) := by
  obtain ⟨h1, h2⟩ := h
  cases op with
  | tryAcquire t =>
    by_cases hh : st.holders = []
    · exact ⟨by simp [lockStep, hh], by simpa [lockStep, hh] using h2⟩
    · simp only [lockStep, if_neg hh]
      exact ⟨h1, by simp [h2, List.append_assoc]⟩
  | release t =>
    by_cases hh : st.holders = [t]
    · simp only [lockStep, if_pos hh]
      cases hq : st.queue with
      | nil => exact ⟨by simp, by simpa [hq] using h2⟩
      | cons w ws =>
        refine ⟨by simp, ?_⟩
        simp only []
        rw [h2, hq]
        simp
    · simpa [lockStep, if_neg hh, LockInv] using ⟨h1, h2⟩

lemma lockRun_inv (ops : List LockOp) : LockInv (lockRun ops) := by
  have hgen : ∀ (l : List LockOp) (st : LockState), LockInv st →
      LockInv (l.foldl lockStep st) := by
    intro l
    induction l with
    | nil => intro st h; simpa using h
    | cons op rest ih =>
      intro st h
      exact ih (lockStep st op) (lockStep_inv st op h)
  exact hgen ops LockState.init ⟨by simp [LockState.init], by simp [LockState.init]⟩

/-! ## Fan-out Notifier (`broadcast` module; source not in tree) -/

/-- Modelled from the spec: the state of the Fan-out Notifier of §4.3
(source `broadcast.rs` is not in this tree).  `fired` records the payload of
the first `fire`, if any; `waiting` lists the subscribers that joined before
the fire and are still awaiting delivery, in subscription order. -/
structure Notifier (P : Type) where
  fired : Option P
  waiting : List Nat

/-- The initial notifier state: not fired, no subscribers. -/
def Notifier.init {P : Type} : Notifier P :=
  { fired := none, waiting := [] }

/-- An operation on the notifier: a subscriber (identified by a number)
joins, or the producer fires a payload. -/
inductive NotifierOp (P : Type) where
  | subscribe : Nat → NotifierOp P
  | fire : P → NotifierOp P

/-- Modelled from the spec: one step of the Fan-out Notifier (§4.3).
Returns the new state and the deliveries (subscriber, payload) made by the
step.  A subscriber joining after the fire is delivered the recorded payload
immediately; one joining before waits.  The first `fire` delivers to every
waiting subscriber; any later `fire` is a no-op and delivers nothing. -/
def notifierStep {P : Type} (st : Notifier P) :
    NotifierOp P → Notifier P × List (Nat × P)
  | NotifierOp.subscribe s =>
      match st.fired with
      | some p => (st, [(s, p)])
      | none => ({ st with waiting := st.waiting ++ [s] }, [])
  | NotifierOp.fire p =>
      match st.fired with
      | some _ => (st, [])
      | none => ({ fired := some p, waiting := [] }, st.waiting.map fun s => (s, p))

/-- Run a sequence of notifier operations from a state, collecting all
deliveries in order. -/
def notifierRunFrom {P : Type} (st : Notifier P) :
    List (NotifierOp P) → Notifier P × List (Nat × P)
  | [] => (st, [])
  | op :: rest =>
      let r1 := notifierStep st op
      let r2 := notifierRunFrom r1.1 rest
      (r2.1, r1.2 ++ r2.2)

lemma notifierRunFrom_append {P : Type} (st : Notifier P)
    (l1 l2 : List (NotifierOp P)) :
    notifierRunFrom st (l1 ++ l2) =
      ((notifierRunFrom (notifierRunFrom st l1).1 l2).1,
        (notifierRunFrom st l1).2 ++ (notifierRunFrom (notifierRunFrom st l1).1 l2).2) := by
  induction l1 generalizing st with
  | nil => simp [notifierRunFrom]
  | cons op rest ih =>
    simp only [List.cons_append, notifierRunFrom]
    rw [show rest.append l2 = rest ++ l2 from rfl, ih]
    simp [List.append_assoc]

lemma notifierRunFrom_subscribes_unfired {P : Type} (w : List Nat) (A : List Nat) :
    notifierRunFrom (P := P) { fired := none, waiting := w } (A.map NotifierOp.subscribe) =
      ({ fired := none, waiting := w ++ A }, []) := by
  induction A generalizing w with
  | nil => simp [notifierRunFrom]
  | cons a rest ih =>
    simp [notifierRunFrom, notifierStep, ih, List.append_assoc]

lemma notifierRunFrom_subscribes_fired {P : Type} (p : P) (w : List Nat) (B : List Nat) :
    notifierRunFrom (P := P) { fired := some p, waiting := w } (B.map NotifierOp.subscribe) =
      ({ fired := some p, waiting := w }, B.map fun s => (s, p)) := by
  induction B with
  | nil => simp [notifierRunFrom]
  | cons b rest ih =>
    simp [notifierRunFrom, notifierStep, ih]

lemma notifierRunFrom_fires_fired {P : Type} (p : P) (w : List Nat) (C : List P) :
    notifierRunFrom (P := P) { fired := some p, waiting := w } (C.map NotifierOp.fire) =
      ({ fired := some p, waiting := w }, []) := by
  induction C with
  | nil => simp [notifierRunFrom]
  | cons c rest ih =>
    simp [notifierRunFrom, notifierStep, ih]

/-- The full delivery log of the canonical trace of §4.3: `A` subscribers
join, the payload is fired once, `B` subscribers join afterwards, and `C`
further (no-op) fires follow. -/
lemma notifierRun_canonical {P : Type} (p : P) (A B : List Nat) (C : List P) :
    notifierRunFrom (P := P) Notifier.init
        (A.map NotifierOp.subscribe ++ [NotifierOp.fire p] ++
          B.map NotifierOp.subscribe ++ C.map NotifierOp.fire) =
      ({ fired := some p, waiting := [] }, (A ++ B).map fun s => (s, p)) := by
  rw [show A.map NotifierOp.subscribe ++ [NotifierOp.fire p] ++
        B.map NotifierOp.subscribe ++ C.map NotifierOp.fire =
      A.map NotifierOp.subscribe ++ ([NotifierOp.fire p] ++
        (B.map NotifierOp.subscribe ++ C.map NotifierOp.fire)) by
    simp [List.append_assoc]]
  rw [notifierRunFrom_append]
  rw [show (Notifier.init : Notifier P) = { fired := none, waiting := [] } from rfl]
  rw [notifierRunFrom_subscribes_unfired]
  simp only [List.nil_append]
  rw [notifierRunFrom_append]
  have hfire : notifierRunFrom (P := P) { fired := none, waiting := A }
      [NotifierOp.fire p] =
      ({ fired := some p, waiting := [] }, A.map fun s => (s, p)) := by
    simp [notifierRunFrom, notifierStep]
  rw [hfire]
  rw [notifierRunFrom_append]
  rw [notifierRunFrom_subscribes_fired]
  rw [notifierRunFrom_fires_fired]
  simp

/-! ## Connection Driver: turn-count independence (`connection` module; source not in tree) -/

/-- Modelled from the spec: feeding one inbound datagram into the protocol
engine (§6: `handle_datagram` followed by draining `poll_event`), viewed as
an opaque deterministic state reducer of type `S → D → S × List E`: from a
state and a datagram it produces the next state and the stream readiness
events that become visible.  `processSeq` feeds a queued sequence of
datagrams in arrival order, concatenating the readiness events. -/
def processSeq {S D E : Type} (handle : S → D → S × List E) :
    S → List D → S × List E
  | s, [] => (s, [])
  | s, d :: ds =>
      let r1 := handle s d
      let r2 := processSeq handle r1.1 ds
      (r2.1, r1.2 ++ r2.2)

/-- Modelled from the spec: the Connection Driver processing the same queued
datagrams split across scheduling turns (§4.5): each turn drains its share of
the backlog in order, then yields; the next turn resumes from the resulting
engine state.  The readiness events of all turns are concatenated in order. -/
def processTurns {S D E : Type} (handle : S → D → S × List E) :
    S → List (List D) → S × List E
  | s, [] => (s, [])
  | s, turn :: turns =>
      let r1 := processSeq handle s turn
      let r2 := processTurns handle r1.1 turns
      (r2.1, r1.2 ++ r2.2)

lemma processSeq_append {S D E : Type} (handle : S → D → S × List E)
    (s : S) (l1 l2 : List D) :
    processSeq handle s (l1 ++ l2) =
      ((processSeq handle (processSeq handle s l1).1 l2).1,
        (processSeq handle s l1).2 ++ (processSeq handle (processSeq handle s l1).1 l2).2) := by
  induction l1 generalizing s with
  | nil => simp [processSeq]
  | cons d rest ih =>
    simp only [List.cons_append, processSeq]
    rw [show rest.append l2 = rest ++ l2 from rfl, ih]
    simp [List.append_assoc]

/-! ## Stream Handles: `read_to_end` (`recv_stream` module; source not in tree) -/

/-- `ReadToEndError` (re-exported in src/quinn/src/lib.rs line 71 from the
`recv_stream` module, whose source is not in this tree).  Modelled from the
spec: the failure cases of `read_to_end` — the resource-exhaustion case when
the stream exceeds the requested bound, or an underlying read error
(abstracted to a numeric tag). -/
inductive ReadToEndError where
  | tooLong : ReadToEndError
  | readErr : Nat → ReadToEndError
  deriving Repr, DecidableEq

/-- Modelled from the spec: the accumulating loop of `read_to_end(max)`
(§4.6): compose reads until end-of-stream, failing with the
resource-exhaustion error as soon as the bytes accumulated so far plus the
next chunk would exceed `max`.  `acc` is the buffer accumulated so far;
`chunks` are the successive reads the stream produces before end-of-stream
(bytes abstracted as numbers). -/
def readToEndLoop (max : Nat) (acc : List Nat) :
    List (List Nat) → Except ReadToEndError (List Nat)
  | [] => Except.ok acc
  | c :: cs =>
      if max < acc.length + c.length then Except.error ReadToEndError.tooLong
      else readToEndLoop max (acc ++ c) cs

/-- Modelled from the spec: `read_to_end(max)` on a stream producing
`chunks` before end-of-stream.  The surrounding connection state (abstracted
as `conn`) is returned unchanged: a resource-exhaustion failure fails the
specific call only (§7 (c)), closing or resetting nothing. -/
def readToEnd (max : Nat) (chunks : List (List Nat)) (conn : Nat) :
    Except ReadToEndError (List Nat) × Nat :=
  (readToEndLoop max [] chunks, conn)

lemma readToEndLoop_ok (max : Nat) (acc : List Nat) (chunks : List (List Nat))
    (h : acc.length + chunks.flatten.length ≤ max) :
    readToEndLoop max acc chunks = Except.ok (acc ++ chunks.flatten) := by
  induction chunks generalizing acc with
  | nil => simp [readToEndLoop]
  | cons c cs ih =>
    rw [List.flatten_cons, List.length_append] at h
    have hc : ¬ max < acc.length + c.length := by omega
    simp only [readToEndLoop, if_neg hc]
    rw [ih (acc ++ c) (by rw [List.length_append]; omega)]
    simp [List.append_assoc]

lemma readToEndLoop_tooLong (max : Nat) (acc : List Nat) (chunks : List (List Nat))
    (hacc : acc.length ≤ max) (h : max < acc.length + chunks.flatten.length) :
    readToEndLoop max acc chunks = Except.error ReadToEndError.tooLong := by
  induction chunks generalizing acc with
  | nil => simp at h; omega
  | cons c cs ih =>
    by_cases hc : max < acc.length + c.length
    · simp [readToEndLoop, if_pos hc]
    · simp only [readToEndLoop, if_neg hc]
      rw [List.flatten_cons, List.length_append] at h
      refine ih (acc ++ c) (by rw [List.length_append]; omega) ?_
      rw [List.length_append]
      omega

/-! ## Endpoint Driver: identifier retirement (`endpoint` module; source not in tree) -/

/-- Modelled from the spec: one inbound datagram as the Endpoint Driver sees
it (§4.4): the connection identifier extracted from it, whether it is a valid
new-connection first packet, and its payload (abstracted). -/
structure Datagram where
  cid : Nat
  isInitial : Bool
  payload : Nat
  deriving Repr, DecidableEq

/-- The outcome of routing one inbound datagram (§4.4 `poll_receive`):
routed to a live connection, accepted as a fresh connection, or discarded as
unroutable (which is not an error). -/
inductive RouteOutcome where
  | routed : Nat → RouteOutcome
  | accepted : Nat → RouteOutcome
  | discarded : RouteOutcome
  deriving Repr, DecidableEq

/-- Modelled from the spec: the Endpoint Driver state of §3/§4.4 (source
`endpoint.rs` is not in this tree): the identifier table mapping connection
identifiers to live connection handles, the set of retired identifiers, the
accept queue of newly created connections, a fresh-handle counter, and the
per-connection inboxes of routed datagrams. -/
structure EndpointState where
  table : List (Nat × Nat)
  retired : List Nat
  accepted : List Nat
  nextConn : Nat
  inbox : List (Nat × Nat)
  deriving Repr, DecidableEq

/-- Look a connection identifier up in the identifier table. -/
def lookupCid : List (Nat × Nat) → Nat → Option Nat
  | [], _ => none
  | e :: rest, cid => if e.1 = cid then some e.2 else lookupCid rest cid

/-- Modelled from the spec: identifier retirement (§4.4) — when connection
`c` reports it is fully drained, all of its identifiers are removed from the
table and recorded as retired. -/
def handleDrained (c : Nat) (st : EndpointState) : EndpointState :=
  { st with
    table := st.table.filter fun e => e.2 ≠ c,
    retired := st.retired ++ (st.table.filter fun e => e.2 = c).map Prod.fst }

/-- Modelled from the spec: `poll_receive` dispatch of one inbound datagram
(§4.4): an identifier matching a live connection routes the datagram to that
connection; a retired identifier is unroutable and the datagram is discarded
(not an error, no state change); otherwise a valid new-connection first
packet creates a fresh connection and enqueues it to the accept queue, and
anything else is discarded. -/
def handleDatagram (d : Datagram) (st : EndpointState) :
    EndpointState × RouteOutcome :=
  match lookupCid st.table d.cid with
  | some c => ({ st with inbox := st.inbox ++ [(c, d.payload)] }, RouteOutcome.routed c)
  | none =>
      if d.cid ∈ st.retired then (st, RouteOutcome.discarded)
      else if d.isInitial then
        ({ st with
            table := st.table ++ [(d.cid, st.nextConn)],
            accepted := st.accepted ++ [st.nextConn],
            nextConn := st.nextConn + 1 }, RouteOutcome.accepted st.nextConn)
      else (st, RouteOutcome.discarded)

lemma lookupCid_filter_ne (table : List (Nat × Nat)) (c cid : Nat)
    (hfun : ∀ c₂, (cid, c₂) ∈ table → c₂ = c) :
    lookupCid (table.filter fun e => e.2 ≠ c) cid = none := by
  induction table with
  | nil => simp [lookupCid]
  | cons e rest ih =>
    have hrest : ∀ c₂, (cid, c₂) ∈ rest → c₂ = c := fun c₂ hm =>
      hfun c₂ (List.mem_cons_of_mem e hm)
    by_cases he : e.2 = c
    · rw [List.filter_cons_of_neg (by simp [he])]
      exact ih hrest
    · rw [List.filter_cons_of_pos (by simp [he])]
      have hne : e.1 ≠ cid := by
        intro hq
        exact he (hfun e.2 (by rw [← hq]; exact List.mem_cons_self e rest))
      simp only [lookupCid, if_neg hne]
      exact ih hrest

lemma mem_retired_handleDrained (st : EndpointState) (c cid : Nat)
    (hmem : (cid, c) ∈ st.table) :
    cid ∈ (handleDrained c st).retired := by
  simp only [handleDrained]
  refine List.mem_append_right _ ?_
  exact List.mem_map_of_mem Prod.fst (List.mem_filter_of_mem hmem (by simp))

/-! ## Cancellation of pending operations (`connection`/`recv_stream`/`send_stream`; source not in tree) -/

/-- Modelled from the spec: the per-connection shared state visible to
pending operations (§3, §5): the registered read/write wakers keyed by
stream, the accept-operation wakers, the per-stream buffered/committed byte
counts, the set of closed streams, and the connection phase (the protocol
engine state machine position, abstracted to a number). -/
structure ConnShared where
  readWakers : List (Nat × Nat)
  writeWakers : List (Nat × Nat)
  acceptWakers : List Nat
  streamBytes : List (Nat × Nat)
  closedStreams : List Nat
  connPhase : Nat
  deriving Repr, DecidableEq

/-- Modelled from the spec: dropping a pending read operation on stream
`sid` that registered waker `wid` (§5 Cancellation): the waker registration
is removed and nothing else changes. -/
def dropPendingRead (sid wid : Nat) (st : ConnShared) : ConnShared :=
  { st with readWakers := st.readWakers.filter fun e => e ≠ (sid, wid) }

/-- Modelled from the spec: dropping a pending write operation on stream
`sid` that registered waker `wid` (§5 Cancellation). -/
def dropPendingWrite (sid wid : Nat) (st : ConnShared) : ConnShared :=
  { st with writeWakers := st.writeWakers.filter fun e => e ≠ (sid, wid) }

/-- Modelled from the spec: dropping a pending accept operation that
registered waker `wid` (§5 Cancellation). -/
def dropPendingAccept (wid : Nat) (st : ConnShared) : ConnShared :=
  { st with acceptWakers := st.acceptWakers.filter fun w => w ≠ wid }

/-! ## Test fixtures used by witnesses -/

/-- A concrete socket implementation used to witness the socket contract:
it transmits at most one datagram per call and never blocks. -/
def testSocket : SocketImpl Unit :=
  mkSocketImplNoCapsOverride
    (fun _ n => Poll.ready (IoResult.ok (min 1 n)))
    (fun _ n => Poll.ready (IoResult.ok (min 1 n)))
    (fun _ => IoResult.ok 0)

/-- A concrete endpoint state: one live connection (handle 0) reachable
through identifier 5. -/
def testEndpoint : EndpointState :=
  { table := [(5, 0)], retired := [], accepted := [], nextConn := 1, inbox := [] }

/-- A concrete datagram addressed to identifier 5, shaped like a
new-connection first packet. -/
def testDatagram : Datagram :=
  { cid := 5, isInitial := true, payload := 9 }

/-! ## Claims -/

/-- Claim C1: for every reachable state of the Shared-State Lock under any
interleaving of `try_acquire` and `release` calls, at most one task holds
the lock at any instant, and pending waiters are resumed in first-in
first-out arrival order (the arrival log equals the resume log followed by
the still-pending queue, so resumptions happen exactly in arrival order). -/
theorem lock_mutual_exclusion_fifo (ops : List LockOp) :
    (lockRun ops).holders.length ≤ 1 ∧
    (lockRun ops).arrived = (lockRun ops).resumed ++ (lockRun ops).queue :=
  lockRun_inv ops

/-- Claim C2: if the Fan-out Notifier is fired once with payload `p` after
the `A` subscribers joined and before the `B` subscribers joined, and `C`
further fire calls follow, then every one of the `A ++ B` subscribers
receives `p` exactly once, every delivery carries the first payload fired,
and the notifier ends in the fired state holding `p` (the later fires were
no-ops). -/
theorem notifier_fanout_exactly_once {P : Type} [DecidableEq P] (p : P)
    (A B : List Nat) (C : List P) (hnd : (A ++ B).Nodup) :
    (∀ s ∈ A ++ B,
      ((notifierRunFrom Notifier.init
          (A.map NotifierOp.subscribe ++ [NotifierOp.fire p] ++
            B.map NotifierOp.subscribe ++ C.map NotifierOp.fire)).2.map Prod.fst).count s = 1) ∧
    (∀ s q, (s, q) ∈ (notifierRunFrom Notifier.init
          (A.map NotifierOp.subscribe ++ [NotifierOp.fire p] ++
            B.map NotifierOp.subscribe ++ C.map NotifierOp.fire)).2 → q = p) ∧
    (notifierRunFrom Notifier.init
        (A.map NotifierOp.subscribe ++ [NotifierOp.fire p] ++
          B.map NotifierOp.subscribe ++ C.map NotifierOp.fire)).1.fired = some p := by
  rw [notifierRun_canonical]
  refine ⟨?_, ?_, rfl⟩
  · intro s hs
    dsimp only
    rw [List.map_map]
    rw [show (Prod.fst ∘ fun s : Nat => (s, p)) = id from rfl, List.map_id]
    exact List.count_eq_one_of_mem hnd hs
  · intro s q hm
    dsimp only at hm
    rcases List.mem_map.mp hm with ⟨a, _, ha⟩
    exact (congrArg Prod.snd ha).symm

/-- Witness for C2 at a concrete trace: subscribers 1 and 2 join, payload 42
fires, subscriber 3 joins, payload 7 fires again as a no-op. -/
theorem notifier_fanout_exactly_once_witness :
    (∀ s ∈ [1, 2] ++ [3],
      ((notifierRunFrom Notifier.init
          (([1, 2] : List Nat).map NotifierOp.subscribe ++ [NotifierOp.fire (42 : Nat)] ++
            ([3] : List Nat).map NotifierOp.subscribe ++
            ([7] : List Nat).map NotifierOp.fire)).2.map Prod.fst).count s = 1) ∧
    (∀ s q, (s, q) ∈ (notifierRunFrom Notifier.init
          (([1, 2] : List Nat).map NotifierOp.subscribe ++ [NotifierOp.fire (42 : Nat)] ++
            ([3] : List Nat).map NotifierOp.subscribe ++
            ([7] : List Nat).map NotifierOp.fire)).2 → q = 42) ∧
    (notifierRunFrom Notifier.init
        (([1, 2] : List Nat).map NotifierOp.subscribe ++ [NotifierOp.fire (42 : Nat)] ++
          ([3] : List Nat).map NotifierOp.subscribe ++
          ([7] : List Nat).map NotifierOp.fire)).1.fired = some 42 :=
  notifier_fanout_exactly_once 42 [1, 2] [3] [7] (by decide)

/-- Claim C3: for every inbound datagram sequence delivered in order, the
Connection Driver produces the same stream readiness events no matter how
the delivery is split across scheduling turns: processing the turns one by
one equals processing the concatenated sequence in one go, for every
deterministic engine `handle`, start state and split. -/
theorem driver_turn_count_independence {S D E : Type}
    (handle : S → D → S × List E) (s : S) (turns : List (List D)) :
    processTurns handle s turns = processSeq handle s turns.flatten := by
  induction turns generalizing s with
  | nil => simp [processTurns, processSeq]
  | cons turn rest ih =>
    simp only [processTurns, List.flatten_cons]
    rw [processSeq_append, ih]

/-- Claim C4: a driver drain step processes at most `IO_LOOP_BOUND = 10`
datagrams per scheduling turn, leaves the rest of the backlog intact and in
order, and re-registers interest exactly when backlog remains, so the
leftover is processed on a later turn. -/
theorem io_loop_bound_per_turn (backlog : List Nat) :
    IO_LOOP_BOUND = 10 ∧
    (drainTurn backlog).processed.length ≤ IO_LOOP_BOUND ∧
    (drainTurn backlog).processed ++ (drainTurn backlog).remaining = backlog ∧
    (drainTurn backlog).reregistered = !(drainTurn backlog).remaining.isEmpty := by
  refine ⟨rfl, ?_, ?_, ?_⟩
  · simp only [drainTurn]
    exact List.length_take_le IO_LOOP_BOUND backlog
  · simp [drainTurn]
  · simp only [drainTurn]
    by_cases h : IO_LOOP_BOUND < backlog.length
    · have h2 : backlog.drop IO_LOOP_BOUND ≠ [] := by
        intro hnil
        have := List.drop_eq_nil_iff.mp hnil
        omega
      simp [h, h2]
    · have h2 : backlog.drop IO_LOOP_BOUND = [] :=
        List.drop_eq_nil_iff.mpr (by omega)
      simp [h, h2]

/-- Claim C5: `read_to_end(max)` returns exactly the bytes of the stream
when it produces at most `max` bytes before end-of-stream (in particular
exactly `max` bytes), fails with the resource-exhaustion error `tooLong`
whenever the stream produces `max + 1` bytes or more, and in both cases
leaves the connection state unchanged. -/
theorem read_to_end_bounded (max : Nat) (chunks : List (List Nat)) (conn : Nat) :
    readToEnd max chunks conn =
      (if chunks.flatten.length ≤ max then Except.ok chunks.flatten
        else Except.error ReadToEndError.tooLong, conn) := by
  unfold readToEnd
  by_cases h : chunks.flatten.length ≤ max
  · rw [if_pos h, readToEndLoop_ok max [] chunks (by rw [List.length_nil]; omega)]
    simp
  · rw [if_neg h,
      readToEndLoop_tooLong max [] chunks (by simp) (by rw [List.length_nil]; omega)]

/-- Claim C6: after connection `c` reports drained, every identifier `cid`
of `c` is removed from the identifier table (lookup finds nothing) and is
recorded retired, and every datagram subsequently arriving for `cid` —
new-connection-shaped or not — is discarded with the endpoint state exactly
unchanged: no error outcome exists, and no connection is created or
resurrected from it. -/
theorem drained_identifiers_discarded (st : EndpointState) (c cid : Nat)
    (d : Datagram) (hmem : (cid, c) ∈ st.table)
    (hfun : ∀ c₂, (cid, c₂) ∈ st.table → c₂ = c) (hd : d.cid = cid) :
    lookupCid (handleDrained c st).table cid = none ∧
    cid ∈ (handleDrained c st).retired ∧
    handleDatagram d (handleDrained c st) =
      (handleDrained c st, RouteOutcome.discarded) := by
  have h1 : lookupCid (handleDrained c st).table cid = none := by
    simp only [handleDrained]
    exact lookupCid_filter_ne st.table c cid hfun
  have h2 : cid ∈ (handleDrained c st).retired :=
    mem_retired_handleDrained st c cid hmem
  refine ⟨h1, h2, ?_⟩
  rw [show handleDatagram d (handleDrained c st) =
      (match lookupCid (handleDrained c st).table d.cid with
        | some cc => ({ handleDrained c st with
            inbox := (handleDrained c st).inbox ++ [(cc, d.payload)] },
            RouteOutcome.routed cc)
        | none =>
            if d.cid ∈ (handleDrained c st).retired then
              (handleDrained c st, RouteOutcome.discarded)
            else if d.isInitial then
              ({ handleDrained c st with
                  table := (handleDrained c st).table ++ [(d.cid, (handleDrained c st).nextConn)],
                  accepted := (handleDrained c st).accepted ++ [(handleDrained c st).nextConn],
                  nextConn := (handleDrained c st).nextConn + 1 },
                RouteOutcome.accepted (handleDrained c st).nextConn)
            else (handleDrained c st, RouteOutcome.discarded)) from rfl]
  rw [hd, h1]
  rw [if_pos h2]

/-- Witness for C6 at a concrete endpoint: connection 0 owning identifier 5
drains; a new-connection-shaped datagram for identifier 5 is discarded. -/
theorem drained_identifiers_discarded_witness :
    lookupCid (handleDrained 0 testEndpoint).table 5 = none ∧
    5 ∈ (handleDrained 0 testEndpoint).retired ∧
    handleDatagram testDatagram (handleDrained 0 testEndpoint) =
      (handleDrained 0 testEndpoint, RouteOutcome.discarded) :=
  drained_identifiers_discarded testEndpoint 0 5 testDatagram
    (by simp [testEndpoint])
    (by intro c₂ h; simpa [testEndpoint] using h)
    rfl

/-- Claim C7: a `Socket` implementation that does not override the
defaulted `caps` associated function reports a maximum GSO batch size of
exactly 1, whatever instance the call is made on behalf of and whenever it
is made. -/
theorem default_caps_gso_one {σ : Type}
    (sendFn recvFn : σ → Nat → Poll (IoResult Nat))
    (la : σ → IoResult Nat) (inst : σ) (t : Nat) :
    (capsCall (mkSocketImplNoCapsOverride sendFn recvFn la) inst t).max_gso_segments = 1 :=
  rfl

/-- Claim C8: for a socket satisfying the §4.1 contract, submitting a batch
of `n` outgoing datagrams yields either pending (would-block), an error, or
a count of transmitted datagrams between 0 and `n` (partial sends are
legal); receive over `n` buffers is symmetric. -/
theorem socket_contract_partial {σ : Type} (I : SocketImpl σ)
    (hc : SocketContract I) (s : σ) (n : Nat) :
    (I.sendFn s n = Poll.pending ∨
      (∃ e, I.sendFn s n = Poll.ready (IoResult.err e)) ∨
      (∃ k, k ≤ n ∧ I.sendFn s n = Poll.ready (IoResult.ok k))) ∧
    (I.recvFn s n = Poll.pending ∨
      (∃ e, I.recvFn s n = Poll.ready (IoResult.err e)) ∨
      (∃ k, k ≤ n ∧ I.recvFn s n = Poll.ready (IoResult.ok k))) := by
  obtain ⟨hs, hr⟩ := hc
  constructor
  · rcases h : I.sendFn s n with r | _
    · rcases r with k | e
      · exact Or.inr (Or.inr ⟨k, hs s n k h, rfl⟩)
      · exact Or.inr (Or.inl ⟨e, rfl⟩)
    · exact Or.inl rfl
  · rcases h : I.recvFn s n with r | _
    · rcases r with k | e
      · exact Or.inr (Or.inr ⟨k, hr s n k h, rfl⟩)
      · exact Or.inr (Or.inl ⟨e, rfl⟩)
    · exact Or.inl rfl

/-- Witness for C8: the concrete `testSocket` satisfies the contract and the
disjunction holds for a batch of 3. -/
theorem socket_contract_partial_witness :
    (testSocket.sendFn () 3 = Poll.pending ∨
      (∃ e, testSocket.sendFn () 3 = Poll.ready (IoResult.err e)) ∨
      (∃ k, k ≤ 3 ∧ testSocket.sendFn () 3 = Poll.ready (IoResult.ok k))) ∧
    (testSocket.recvFn () 3 = Poll.pending ∨
      (∃ e, testSocket.recvFn () 3 = Poll.ready (IoResult.err e)) ∨
      (∃ k, k ≤ 3 ∧ testSocket.recvFn () 3 = Poll.ready (IoResult.ok k))) :=
  socket_contract_partial testSocket
    ⟨by intro s n k h
        simp [testSocket, mkSocketImplNoCapsOverride] at h
        omega,
      by intro s n k h
         simp [testSocket, mkSocketImplNoCapsOverride] at h
         omega⟩
    () 3

/-- Claim C9: dropping a pending read, write or accept operation removes
only that registration from the waker tables; the per-stream byte counts,
the closed-stream set and the connection phase are exactly as they were —
no bytes are consumed or committed, no stream is closed and no connection
transition occurs. -/
theorem drop_pending_ops_no_state_effect (st : ConnShared) (sid wid : Nat) :
    ((sid, wid) ∉ (dropPendingRead sid wid st).readWakers ∧
      (dropPendingRead sid wid st).writeWakers = st.writeWakers ∧
      (dropPendingRead sid wid st).acceptWakers = st.acceptWakers ∧
      (dropPendingRead sid wid st).streamBytes = st.streamBytes ∧
      (dropPendingRead sid wid st).closedStreams = st.closedStreams ∧
      (dropPendingRead sid wid st).connPhase = st.connPhase) ∧
    ((sid, wid) ∉ (dropPendingWrite sid wid st).writeWakers ∧
      (dropPendingWrite sid wid st).readWakers = st.readWakers ∧
      (dropPendingWrite sid wid st).acceptWakers = st.acceptWakers ∧
      (dropPendingWrite sid wid st).streamBytes = st.streamBytes ∧
      (dropPendingWrite sid wid st).closedStreams = st.closedStreams ∧
      (dropPendingWrite sid wid st).connPhase = st.connPhase) ∧
    (wid ∉ (dropPendingAccept wid st).acceptWakers ∧
      (dropPendingAccept wid st).readWakers = st.readWakers ∧
      (dropPendingAccept wid st).writeWakers = st.writeWakers ∧
      (dropPendingAccept wid st).streamBytes = st.streamBytes ∧
      (dropPendingAccept wid st).closedStreams = st.closedStreams ∧
      (dropPendingAccept wid st).connPhase = st.connPhase) := by
  refine ⟨⟨?_, rfl, rfl, rfl, rfl, rfl⟩, ⟨?_, rfl, rfl, rfl, rfl, rfl⟩,
    ⟨?_, rfl, rfl, rfl, rfl, rfl⟩⟩
  · simp [dropPendingRead, List.mem_filter]
  · simp [dropPendingWrite, List.mem_filter]
  · simp [dropPendingAccept, List.mem_filter]

/-- Claim C10: `Socket::caps` is an associated function taking no socket
instance, so for any implementation the reported capabilities are a
per-type constant: any two calls, on behalf of any instances at any times,
return equal values. -/
theorem caps_type_constant {σ : Type} (I : SocketImpl σ)
    (s₁ s₂ : σ) (t₁ t₂ : Nat) :
    capsCall I s₁ t₁ = capsCall I s₂ t₂ :=
  rfl

end Quinn
